import Mathlib

/-!
Formal model of the persistence and request-execution core of the Golem
API-testing client (Go sources: `storage/db.go`, `storage/models.go`,
`main.go`, `ui/history.go`).

The SQLite-backed store is modelled as an in-memory structure holding the
four tables created by `migrate` (db.go).  SQL statements executed by the
data-access layer are translated operation by operation.  Two facts about
the environment configured by the code are reflected in the model:

* db.go opens the connection with `sql.Open("sqlite", dbPath)` and never
  issues `PRAGMA foreign_keys = ON` (the modernc.org/sqlite driver, like
  SQLite itself, leaves foreign-key enforcement OFF by default), so the
  `ON DELETE SET NULL` / `ON DELETE CASCADE` clauses declared in the schema
  do not fire at runtime;
* SQLite's `LIKE` operator is case-insensitive for the ASCII range, with
  `%` and `_` as wildcards; it is embedded below as `likeMatch`.

`CURRENT_TIMESTAMP` is abstracted as a logical clock carried by the store
(one tick per timestamp-stamping statement); wall-clock times elsewhere are
abstract naturals supplied by the caller, and durations are integer
milliseconds.  Go's `encoding/json` serialization of history rows is
embedded as a `Json` value tree mirroring the struct tags on
`RequestHistory` (including `omitempty`); the textual indentation produced
by `json.MarshalIndent` is not part of the model.
-/

/-- Model of `storage.Preference` (models.go). -/
structure Preference where
  key : String
  value : String
  updatedAt : Nat
deriving Repr, DecidableEq

/-- Model of `storage.Collection` (models.go). -/
structure Collection where
  id : Nat
  name : String
  description : String
  createdAt : Nat
deriving Repr, DecidableEq

/-- Model of `storage.RequestHistory` (models.go).  Field order and
optionality follow the Go struct; `CollectionID *int` becomes
`Option Nat`. -/
structure RequestHistory where
  id : Nat
  URL : String
  Method : String
  Headers : String
  Body : String
  timestamp : Nat
  responseStatus : String
  responseBody : String
  responseHeaders : String
  responseTimeMs : Int
  responseSize : Int
  isFavorite : Bool
  collectionID : Option Nat
deriving Repr, DecidableEq

/-- Model of `storage.SavedRequest` (models.go). -/
structure SavedRequest where
  id : Nat
  name : String
  URL : String
  Method : String
  Headers : String
  Body : String
  collectionID : Option Nat
  createdAt : Nat
deriving Repr, DecidableEq

/-- The SQLite database `~/.golem/golem.db` after `migrate` (db.go): the four
tables, the `AUTOINCREMENT` counters for the three integer-keyed tables
(SQLite assigns ids starting from 1), and a logical clock standing for
`CURRENT_TIMESTAMP`. -/
structure Store where
  clock : Nat
  nextHistoryId : Nat
  nextCollectionId : Nat
  nextSavedId : Nat
  preferences : List Preference
  collections : List Collection
  request_history : List RequestHistory
  saved_requests : List SavedRequest
deriving Repr, DecidableEq

/-- A freshly migrated database: empty tables, ids start at 1. -/
def emptyStore : Store :=
  { clock := 0, nextHistoryId := 1, nextCollectionId := 1, nextSavedId := 1,
    preferences := [], collections := [], request_history := [],
    saved_requests := [] }

/-! ### SQLite LIKE

`SearchRequestHistory` filters with `url LIKE ? OR method LIKE ? OR
response_status LIKE ?` where the pattern is `"%" + searchTerm + "%"`.
SQLite's `LIKE` treats `%` as "any sequence", `_` as "any single
character", and compares other characters case-insensitively over the
ASCII range. -/

/-- SQLite LIKE's ASCII case folding: upper-case ASCII letters compare
equal to their lower-case forms. -/
def likeFoldChar (c : Char) : Char :=
  if 'A' ≤ c ∧ c ≤ 'Z' then Char.ofNat (c.toNat + 32) else c

/-- Try a predicate on every suffix of the string (the backtracking step
for a `%` wildcard). -/
def likeStar (f : List Char → Bool) : List Char → Bool
  | [] => f []
  | c :: s => f (c :: s) || likeStar f s

/-- SQLite `LIKE` pattern matching over character lists (no ESCAPE clause,
as in the source queries): `%` matches any sequence, `_` any single
character, other characters match up to ASCII case folding. -/
def likeMatch : List Char → List Char → Bool
  | [], s => s.isEmpty
  | c :: p, s =>
      if c = '%' then likeStar (likeMatch p) s
      else
        match s with
        | [] => false
        | c2 :: s2 =>
            if c = '_' then likeMatch p s2
            else (likeFoldChar c == likeFoldChar c2) && likeMatch p s2

/-- `field LIKE '%' || term || '%'` as executed by `SearchRequestHistory`
(models.go line 169 builds the pattern `"%" + searchTerm + "%"`). -/
def likeStr (term field : String) : Bool :=
  likeMatch ('%' :: (term.toList ++ ['%'])) field.toList

/-! ### Ordering

`ORDER BY timestamp DESC` is modelled as a stable sort by descending
timestamp. -/

/-- The comparison used by `ORDER BY timestamp DESC`. -/
def histDesc (a b : RequestHistory) : Prop := b.timestamp ≤ a.timestamp

instance : DecidableRel histDesc := fun a b => Nat.decLe b.timestamp a.timestamp

instance : IsTotal RequestHistory histDesc :=
  ⟨fun a b => Nat.le_total b.timestamp a.timestamp⟩

instance : IsTrans RequestHistory histDesc :=
  ⟨fun _ _ _ h1 h2 => Nat.le_trans h2 h1⟩

/-- `ORDER BY timestamp DESC` applied to the history table. -/
def sortHistDesc (l : List RequestHistory) : List RequestHistory :=
  List.insertionSort histDesc l

/-! ### Data-access layer (models.go) -/

/-- `GetPreference` (models.go): `SELECT ... FROM preferences WHERE key = ?`;
`sql.ErrNoRows` becomes `none`. -/
def GetPreference (s : Store) (key : String) : Option Preference :=
  s.preferences.find? (fun p => p.key == key)

/-- `SetPreference` (models.go): `INSERT ... ON CONFLICT(key) DO UPDATE SET
value = excluded.value, updated_at = CURRENT_TIMESTAMP`.  The logical clock
ticks to produce the new `CURRENT_TIMESTAMP`. -/
def SetPreference (s : Store) (key value : String) : Store :=
  let ts := s.clock + 1
  { s with
    clock := ts,
    preferences :=
      if s.preferences.any (fun p => p.key == key) then
        s.preferences.map (fun p =>
          if p.key == key then { p with value := value, updatedAt := ts } else p)
      else
        s.preferences ++ [{ key := key, value := value, updatedAt := ts }] }

/-- `SaveRequestHistory` (models.go): INSERT of all non-id columns; SQLite
assigns the next rowid, which the function writes back into `req.ID`. -/
def SaveRequestHistory (s : Store) (req : RequestHistory) : Store × RequestHistory :=
  let r := { req with id := s.nextHistoryId }
  ({ s with
      request_history := s.request_history ++ [r],
      nextHistoryId := s.nextHistoryId + 1 }, r)

/-- `GetRequestHistory` (models.go): `SELECT ... ORDER BY timestamp DESC
LIMIT ? OFFSET ?`. -/
def GetRequestHistory (s : Store) (limit offset : Nat) : List RequestHistory :=
  ((sortHistDesc s.request_history).drop offset).take limit

/-- `SearchRequestHistory` (models.go): `WHERE url LIKE ? OR method LIKE ?
OR response_status LIKE ? ORDER BY timestamp DESC LIMIT ?` with pattern
`"%" + searchTerm + "%"` bound to all three placeholders. -/
def SearchRequestHistory (s : Store) (searchTerm : String) (limit : Nat) :
    List RequestHistory :=
  (sortHistDesc (s.request_history.filter (fun r =>
    likeStr searchTerm r.URL || likeStr searchTerm r.Method ||
      likeStr searchTerm r.responseStatus))).take limit

/-- `ClearRequestHistory` (models.go): `DELETE FROM request_history`. -/
def ClearRequestHistory (s : Store) : Store :=
  { s with request_history := [] }

/-- `DeleteCollection` (models.go): executes only
`DELETE FROM collections WHERE id = ?`.  Because db.go never enables the
`foreign_keys` pragma (off by default in modernc.org/sqlite, as in SQLite),
the schema's `ON DELETE SET NULL` on `request_history.collection_id` and
`ON DELETE CASCADE` on `saved_requests.collection_id` are not enforced:
the other tables are untouched. -/
def DeleteCollection (s : Store) (id : Nat) : Store :=
  { s with collections := s.collections.filter (fun c => c.id ≠ id) }

/-- `GetSavedRequests` (models.go): for `some cid`,
`SELECT ... FROM saved_requests WHERE collection_id = ? ORDER BY name`;
for `none`, `... WHERE collection_id IS NULL ORDER BY name`. -/
def GetSavedRequests (s : Store) (collectionID : Option Nat) : List SavedRequest :=
  List.insertionSort (fun a b => a.name ≤ b.name)
    (s.saved_requests.filter (fun r => r.collectionID == collectionID))

instance : DecidableRel (fun (a b : SavedRequest) => a.name ≤ b.name) :=
  fun a b => inferInstanceAs (Decidable (a.name ≤ b.name))

/-! ### JSON serialization (encoding/json on `RequestHistory`)

`ExportHistory` runs `json.MarshalIndent(history, "", "  ")` on a
`[]*RequestHistory` and `ImportHistory` runs `json.Unmarshal` into one.
The value tree is modelled by `Json`; Go marshals a nil slice (the value
`GetRequestHistory` returns when no rows match) as JSON `null`, and
`json.Unmarshal` of `null` into a slice leaves it nil. -/

/-- A JSON value. -/
inductive Json where
  | null
  | str (s : String)
  | num (n : Int)
  | jb (b : Bool)
  | arr (xs : List Json)
  | obj (fields : List (String × Json))

/-- Whether a JSON value is an array. -/
def Json.isArr : Json → Bool
  | .arr _ => true
  | _ => false

/-- First field with the given name in a JSON object body. -/
def jsonField (fields : List (String × Json)) (k : String) : Option Json :=
  match fields with
  | [] => none
  | (k2, v) :: rest => if k2 == k then some v else jsonField rest k

/-- `json.Marshal` of one `RequestHistory`, following the struct tags in
models.go: `headers`, `body`, `response_status`, `response_body`,
`response_headers` and `collection_id` carry `omitempty` and are dropped
when empty / nil; timestamps are abstract naturals encoded as numbers. -/
def encodeRow (r : RequestHistory) : Json :=
  Json.obj (
    [("id", Json.num (Int.ofNat r.id)), ("url", Json.str r.URL),
     ("method", Json.str r.Method)]
    ++ (if r.Headers = "" then [] else [("headers", Json.str r.Headers)])
    ++ (if r.Body = "" then [] else [("body", Json.str r.Body)])
    ++ [("timestamp", Json.num (Int.ofNat r.timestamp))]
    ++ (if r.responseStatus = "" then []
        else [("response_status", Json.str r.responseStatus)])
    ++ (if r.responseBody = "" then []
        else [("response_body", Json.str r.responseBody)])
    ++ (if r.responseHeaders = "" then []
        else [("response_headers", Json.str r.responseHeaders)])
    ++ [("response_time_ms", Json.num r.responseTimeMs),
        ("response_size", Json.num r.responseSize),
        ("is_favorite", Json.jb r.isFavorite)]
    ++ (match r.collectionID with
        | none => []
        | some c => [("collection_id", Json.num (Int.ofNat c))]))

/-- `json.Unmarshal` of one object into a `RequestHistory`: a missing field
leaves the zero value, a field of the wrong JSON type is an error. -/
def decodeRow (j : Json) : Option RequestHistory :=
  match j with
  | Json.obj fs =>
      (match jsonField fs "id" with
       | none => some 0 | some (Json.num n) => some n.toNat | some _ => none).bind
      fun id =>
      (match jsonField fs "url" with
       | none => some "" | some (Json.str s) => some s | some _ => none).bind
      fun url =>
      (match jsonField fs "method" with
       | none => some "" | some (Json.str s) => some s | some _ => none).bind
      fun method =>
      (match jsonField fs "headers" with
       | none => some "" | some (Json.str s) => some s | some _ => none).bind
      fun headers =>
      (match jsonField fs "body" with
       | none => some "" | some (Json.str s) => some s | some _ => none).bind
      fun body =>
      (match jsonField fs "timestamp" with
       | none => some 0 | some (Json.num n) => some n.toNat | some _ => none).bind
      fun ts =>
      (match jsonField fs "response_status" with
       | none => some "" | some (Json.str s) => some s | some _ => none).bind
      fun rstatus =>
      (match jsonField fs "response_body" with
       | none => some "" | some (Json.str s) => some s | some _ => none).bind
      fun rbody =>
      (match jsonField fs "response_headers" with
       | none => some "" | some (Json.str s) => some s | some _ => none).bind
      fun rheaders =>
      (match jsonField fs "response_time_ms" with
       | none => some 0 | some (Json.num n) => some n | some _ => none).bind
      fun rtime =>
      (match jsonField fs "response_size" with
       | none => some 0 | some (Json.num n) => some n | some _ => none).bind
      fun rsize =>
      (match jsonField fs "is_favorite" with
       | none => some false | some (Json.jb b) => some b | some _ => none).bind
      fun fav =>
      (match jsonField fs "collection_id" with
       | none => some none | some (Json.num n) => some (some n.toNat)
       | some _ => none).bind
      fun cid =>
      some { id := id, URL := url, Method := method, Headers := headers,
             Body := body, timestamp := ts, responseStatus := rstatus,
             responseBody := rbody, responseHeaders := rheaders,
             responseTimeMs := rtime, responseSize := rsize,
             isFavorite := fav, collectionID := cid }
  | _ => none

/-- `json.Marshal` of the `[]*RequestHistory` slice built by
`GetRequestHistory`: the slice is nil (JSON `null`) exactly when no row was
appended, otherwise a JSON array of objects. -/
def encodeHistory (rows : List RequestHistory) : Json :=
  match rows with
  | [] => Json.null
  | _ => Json.arr (rows.map encodeRow)

/-- Decode each element of a JSON array into a history row. -/
def decodeRows (xs : List Json) : Option (List RequestHistory) :=
  match xs with
  | [] => some []
  | j :: rest =>
      (decodeRow j).bind fun r => (decodeRows rest).map fun rs => r :: rs

/-- `json.Unmarshal` of the import file into `[]*RequestHistory`: `null`
yields the nil slice, an array decodes elementwise, anything else is an
unmarshal error. -/
def decodeHistory (j : Json) : Option (List RequestHistory) :=
  match j with
  | Json.null => some []
  | Json.arr xs => decodeRows xs
  | _ => none

/-! ### Export / import (models.go) -/

/-- `ExportHistory` (models.go): fetch `GetRequestHistory(10000, 0)`,
marshal, write to the caller's path.  The result is the JSON document
written to the file. -/
def ExportHistory (s : Store) : Json :=
  encodeHistory (GetRequestHistory s 10000 0)

/-- The transaction loop of `ImportHistory`: insert each row in order
(SQLite assigns fresh ids; the row's own `id` field is not inserted);
the first failing insert aborts with its error.  `fail` is the underlying
store's verdict on each INSERT (none = success), abstracting I/O and
constraint failures of `tx.Exec`. -/
def importTx (fail : RequestHistory → Option String) :
    List RequestHistory → List RequestHistory → Nat →
      Except String (List RequestHistory × Nat)
  | [], hist, nid => .ok (hist, nid)
  | r :: rs, hist, nid =>
      match fail r with
      | some e => .error e
      | none => importTx fail rs (hist ++ [{ r with id := nid }]) (nid + 1)

/-- `ImportHistory` (models.go): read the file, `json.Unmarshal` it, then
run every INSERT inside one transaction with `defer tx.Rollback()`; a
failed unmarshal or INSERT returns the error with the store unchanged,
otherwise `tx.Commit` publishes all rows. -/
def ImportHistory (fail : RequestHistory → Option String) (s : Store)
    (file : Json) : Store × Option String :=
  match decodeHistory file with
  | none => (s, some "json: cannot unmarshal")
  | some rows =>
      match importTx fail rows s.request_history s.nextHistoryId with
      | .error e => (s, some e)
      | .ok (hist, nid) =>
          ({ s with request_history := hist, nextHistoryId := nid }, none)

/-! ### Request executor (main.go) -/

/-- Model of `ResponseHeader` (main.go). -/
structure ResponseHeader where
  Key : String
  Value : String
deriving Repr, DecidableEq

/-- Model of `ResponseInfo` (main.go); `ResponseTime` is kept in integer
milliseconds. -/
structure ResponseInfo where
  Body : String
  Headers : List ResponseHeader
  Status : String
  Size : Int
  ResponseTime : Int
deriving Repr, DecidableEq

/-- The double loop `for key, values := range resp.Header { for _, value
:= range values { ... } }` in `executeRequest`, applied to the header map
in some iteration order `iter` (Go's map iteration order is unspecified;
`iter` ranges over permutations of the map's entries, each entry holding
one canonical key with its values in received order). -/
def collectHeaders (iter : List (String × List String)) : List ResponseHeader :=
  iter.flatMap (fun kv => kv.2.map (fun v => ResponseHeader.mk kv.1 v))

/-- The outcome of `http.NewRequest` + `client.Do` + `io.ReadAll` for one
call: either some step failed (request construction, DNS, connect, the
30-second timeout, or reading the body), or a response arrived with a
status line, header map and body — the status may be any string,
including non-2xx ones. -/
inductive HTTPOutcome where
  | failure (msg : String)
  | success (status : String) (headerIter : List (String × List String))
      (body : String)
deriving Repr, DecidableEq

/-- Whether the outcome is a failed call (no HTTP response obtained). -/
def HTTPOutcome.isFailure : HTTPOutcome → Bool
  | .failure _ => true
  | .success _ _ _ => false

/-- The fixed `http.Client` timeout set in `executeRequest` (main.go):
`Timeout: 30 * time.Second`. -/
def clientTimeoutSeconds : Nat := 30

/-- `executeRequest` (main.go) given the call's outcome and measured
elapsed milliseconds: any failed step propagates its error; otherwise the
response is packaged with `Size = len(body)` and the status recorded
verbatim — the status code is never inspected. -/
def executeRequest (elapsedMs : Int) : HTTPOutcome → Except String ResponseInfo
  | .failure e => .error e
  | .success status iter body =>
      .ok { Body := body, Headers := collectHeaders iter, Status := status,
            Size := Int.ofNat body.length, ResponseTime := elapsedMs }

/-! ### History recorder (main.go `submitRequest`, ui/history.go) -/

/-- Model of `json.Marshal(response.Headers)` in `submitRequest`: the Go
JSON text for a `[]ResponseHeader` (string escaping elided — the claims
only compare serialized values for equality). -/
def marshalHeaders (hs : List ResponseHeader) : String :=
  "[" ++ String.intercalate ","
    (hs.map (fun h =>
      "\x7b\"Key\":\"" ++ h.Key ++ "\",\"Value\":\"" ++ h.Value ++ "\"\x7d"))
  ++ "]"

/-- The history-entry construction inside `submitRequest` (main.go): the
entry starts as `{URL: url, Method: method, Timestamp: time.Now()}`; on
executor error only `ResponseStatus = "Error"` is added, on success the
status, body, serialized headers, elapsed milliseconds and size are
copied.  `now` is the `time.Now()` reading. -/
def submitRequestEntry (url method : String) (now : Nat)
    (result : Except String ResponseInfo) : RequestHistory :=
  match result with
  | .error _ =>
      { id := 0, URL := url, Method := method, Headers := "", Body := "",
        timestamp := now, responseStatus := "Error", responseBody := "",
        responseHeaders := "", responseTimeMs := 0, responseSize := 0,
        isFavorite := false, collectionID := none }
  | .ok resp =>
      { id := 0, URL := url, Method := method, Headers := "", Body := "",
        timestamp := now, responseStatus := resp.Status,
        responseBody := resp.Body,
        responseHeaders := marshalHeaders resp.Headers,
        responseTimeMs := resp.ResponseTime, responseSize := resp.Size,
        isFavorite := false, collectionID := none }

/-- `AddToHistory` (ui/history.go): persist via `SaveRequestHistory`; on
persistence failure only log and return — the panel list and store are
left untouched and no error reaches the caller (the return type has no
error component).  On success the saved row is prepended to the in-memory
panel list, truncated to 100 entries.  `saveErr` is the underlying
store's verdict on the INSERT. -/
def AddToHistory (saveErr : Option String) (s : Store)
    (panel : List RequestHistory) (req : RequestHistory) :
    Store × List RequestHistory :=
  match saveErr with
  | some _ => (s, panel)
  | none =>
      let (s2, r) := SaveRequestHistory s req
      (s2, (r :: panel).take 100)

/-! ### Auxiliary definitions used by the claim statements -/

/-- Case-insensitive (ASCII) substring containment, the specification-level
reading of `field LIKE '%' || term || '%'` for wildcard-free terms. -/
def ciContains (term field : String) : Prop :=
  (term.toList.map likeFoldChar) <:+: (field.toList.map likeFoldChar)

instance (t f : String) : Decidable (ciContains t f) :=
  inferInstanceAs
    (Decidable ((t.toList.map likeFoldChar) <:+: (f.toList.map likeFoldChar)))

/-- Case-sensitive substring containment, the reading of "contains term as
a case-sensitive substring" in the claim under test. -/
def csContains (term field : String) : Prop :=
  term.toList <:+: field.toList

instance (t f : String) : Decidable (csContains t f) :=
  inferInstanceAs (Decidable (t.toList <:+: f.toList))

/-- Ids SQLite assigns to a batch of inserted rows, starting at `n`. -/
def assignIds (n : Nat) : List RequestHistory → List RequestHistory
  | [] => []
  | r :: rs => { r with id := n } :: assignIds (n + 1) rs

/-- Forget the store-assigned identity of a history row (the claims about
export/import compare rows up to identity). -/
def stripId (r : RequestHistory) : RequestHistory := { r with id := 0 }

/-- Clock well-formedness: every stored preference timestamp was produced
by an earlier `CURRENT_TIMESTAMP` reading, so it is at most the store's
clock. -/
def ClockWF (s : Store) : Prop :=
  ∀ p ∈ s.preferences, p.updatedAt ≤ s.clock

/-- A sample history row (concrete inputs for witnesses and
counterexamples). -/
def mkRow (n ts : Nat) (u m st : String) : RequestHistory :=
  { id := n, URL := u, Method := m, Headers := "", Body := "",
    timestamp := ts, responseStatus := st, responseBody := "",
    responseHeaders := "", responseTimeMs := 12, responseSize := 34,
    isFavorite := false, collectionID := none }

/-- C1 input: a history row referencing collection 1. -/
def c1History : RequestHistory :=
  { mkRow 1 5 "https://a.example/x" "GET" "200 OK" with collectionID := some 1 }

/-- C1 input: a saved request owned by collection 1. -/
def c1Saved : SavedRequest :=
  { id := 1, name := "r1", URL := "https://a.example/x", Method := "GET",
    Headers := "", Body := "", collectionID := some 1, createdAt := 3 }

/-- C1 input: a store with one collection, one history row referencing it
and one saved request owned by it. -/
def c1Store : Store :=
  { emptyStore with
    nextHistoryId := 2, nextCollectionId := 2, nextSavedId := 2,
    collections := [{ id := 1, name := "c", description := "", createdAt := 2 }],
    request_history := [c1History], saved_requests := [c1Saved] }

/-- C2 input: a history row whose method is upper-case `GET` and whose URL
and status contain no occurrence of `get` in any case. -/
def c2Row : RequestHistory :=
  mkRow 1 5 "https://api.example.com/items" "GET" "200 OK"

/-- C2 input: a store holding only `c2Row`. -/
def c2Store : Store :=
  { emptyStore with nextHistoryId := 2, request_history := [c2Row] }

/-- C6 input: the response header map after receiving `A: 1` then `B: 2`. -/
def c6Entries : List (String × List String) := [("A", ["1"]), ("B", ["2"])]

/-- C6 input: one admissible (randomized) Go map iteration order over
`c6Entries`. -/
def c6Iter : List (String × List String) := [("B", ["2"]), ("A", ["1"])]

/-- C8 witness input: a store with one preference written at clock 3. -/
def c8Store : Store :=
  { emptyStore with
    clock := 5,
    preferences := [{ key := "last_url", value := "old", updatedAt := 3 }] }

/-- C3 witness input: first row of the import file. -/
def c3RowA : RequestHistory := mkRow 0 7 "https://a.example/1" "GET" "200 OK"

/-- C3 witness input: second row of the import file, on which the insert
will fail. -/
def c3RowB : RequestHistory := mkRow 0 8 "https://a.example/2" "POST" "500"

/-- C3 witness input: the underlying store fails the INSERT of the POST
row. -/
def c3Fail : RequestHistory → Option String :=
  fun r => if r.Method == "POST" then some "database is locked" else none

/-- C3 witness input: the import file holding both rows. -/
def c3File : Json := encodeHistory [c3RowA, c3RowB]

/-- C4 witness input: a store with two history rows. -/
def c4Store : Store :=
  { emptyStore with
    nextHistoryId := 3,
    request_history := [mkRow 1 5 "https://a.example/1" "GET" "200 OK",
                        mkRow 2 9 "https://a.example/2" "POST" "201 Created"] }

/-- C9 witness input: a store with a single history row. -/
def c9Store : Store :=
  { emptyStore with
    nextHistoryId := 2,
    request_history := [mkRow 1 4 "https://a.example/only" "GET" "200 OK"] }

/-! ## Claims -/

/-- C1: the claim says deleting a collection nulls the collection reference
on history rows and cascade-deletes its saved requests.  The code violates
it: with foreign-key enforcement never enabled, `DeleteCollection c1Store 1`
removes the collections row but leaves the history row still referencing
collection 1 (a dangling, non-null reference) and still lists the saved
request under collection 1. -/
theorem c1_deleteCollection_leaves_dangling_references :
    (DeleteCollection c1Store 1).collections = [] ∧
    (DeleteCollection c1Store 1).request_history = [c1History] ∧
    c1History.collectionID = some 1 ∧
    GetSavedRequests (DeleteCollection c1Store 1) (some 1) = [c1Saved] := by
  refine ⟨by decide, by decide, by decide, by decide⟩

/-- C2 counterexample: the claim says a row matching only case-insensitively
(term `get` against method `GET`) is not returned; but SQLite `LIKE` is
case-insensitive on ASCII, so the search does return the row even though
none of its URL, method or response status contains `get` as a
case-sensitive substring. -/
theorem c2_search_case_sensitivity_cex :
    SearchRequestHistory c2Store "get" 10 = [c2Row] ∧
    ¬ csContains "get" c2Row.URL ∧
    ¬ csContains "get" c2Row.Method ∧
    ¬ csContains "get" c2Row.responseStatus := by
  refine ⟨by decide, by decide, by decide, by decide⟩

/-- C5: `executeRequest` returns an error exactly when the call itself
failed (request construction/DNS/connect/timeout under the fixed 30-second
client timeout, or reading the body); an HTTP response with any status —
non-2xx included — is returned as a successful `ResponseInfo` carrying
that status verbatim, the status code never being inspected. -/
theorem c5_executeRequest_error_iff_transport_failure :
    clientTimeoutSeconds = 30 ∧
    (∀ (elapsedMs : Int) (o : HTTPOutcome),
      (executeRequest elapsedMs o).isOk = !o.isFailure) ∧
    (∀ (elapsedMs : Int) (status : String)
        (iter : List (String × List String)) (body : String),
      executeRequest elapsedMs (HTTPOutcome.success status iter body) =
        Except.ok { Body := body, Headers := collectHeaders iter,
                    Status := status, Size := Int.ofNat body.length,
                    ResponseTime := elapsedMs }) := by
  refine ⟨rfl, ?_, fun _ _ _ _ => rfl⟩
  intro el o
  cases o <;> rfl

/-- C6 counterexample: the claim says header pairs appear in the order the
headers were received; but the double loop ranges over the Go header map,
whose iteration order is unspecified — the admissible iteration order
`c6Iter` (a permutation of the map entries for a response that sent
`A: 1` before `B: 2`) yields the pairs in the opposite order. -/
theorem c6_header_order_cex :
    c6Iter.Perm c6Entries ∧
    collectHeaders c6Entries =
      [ResponseHeader.mk "A" "1", ResponseHeader.mk "B" "2"] ∧
    collectHeaders c6Iter =
      [ResponseHeader.mk "B" "2", ResponseHeader.mk "A" "1"] ∧
    collectHeaders c6Iter ≠
      [ResponseHeader.mk "A" "1", ResponseHeader.mk "B" "2"] := by
  refine ⟨by decide, by decide, by decide, by decide⟩

/-- C7: the history row built by `submitRequest` carries the sentinel
status `"Error"` and empty/zero response fields when the executor failed,
and the executor's status, body, serialized headers, elapsed milliseconds
and size on success; both rows are stamped with the current time `now`;
and a persistence failure in `AddToHistory` is logged only — the store and
panel are returned unchanged and no error reaches the caller. -/
theorem c7_history_row_sentinel_and_fire_and_forget :
    (∀ (url method : String) (now : Nat) (e : String),
      submitRequestEntry url method now (Except.error e) =
        { id := 0, URL := url, Method := method, Headers := "", Body := "",
          timestamp := now, responseStatus := "Error", responseBody := "",
          responseHeaders := "", responseTimeMs := 0, responseSize := 0,
          isFavorite := false, collectionID := none }) ∧
    (∀ (url method : String) (now : Nat) (resp : ResponseInfo),
      submitRequestEntry url method now (Except.ok resp) =
        { id := 0, URL := url, Method := method, Headers := "", Body := "",
          timestamp := now, responseStatus := resp.Status,
          responseBody := resp.Body,
          responseHeaders := marshalHeaders resp.Headers,
          responseTimeMs := resp.ResponseTime, responseSize := resp.Size,
          isFavorite := false, collectionID := none }) ∧
    (∀ (msg : String) (s : Store) (panel : List RequestHistory)
        (req : RequestHistory),
      AddToHistory (some msg) s panel req = (s, panel)) :=
  ⟨fun _ _ _ _ => rfl, fun _ _ _ _ => rfl, fun _ _ _ _ => rfl⟩

/-- C9 counterexample: the claim says exporting an empty store also
produces a JSON array; but `GetRequestHistory` returns the nil slice for
an empty store and Go marshals a nil slice as JSON `null`, not an
array. -/
theorem c9_export_empty_store_not_array :
    ExportHistory emptyStore = Json.null ∧
    (ExportHistory emptyStore).isArr = false :=
  ⟨rfl, rfl⟩

/-- C10: `ClearRequestHistory` deletes every request_history row and
leaves the preferences, collections and saved_requests tables exactly as
they were. -/
theorem c10_clearRequestHistory_frame (s : Store) :
    (ClearRequestHistory s).request_history = [] ∧
    (ClearRequestHistory s).preferences = s.preferences ∧
    (ClearRequestHistory s).collections = s.collections ∧
    (ClearRequestHistory s).saved_requests = s.saved_requests :=
  ⟨rfl, rfl, rfl, rfl⟩

/-! ### LIKE-matching lemmas -/

/-- A `%` wildcard step succeeds exactly when the rest of the pattern
matches some suffix. -/
theorem likeStar_iff (f : List Char → Bool) (s : List Char) :
    likeStar f s = true ↔ ∃ a b, s = a ++ b ∧ f b = true := by
  induction s with
  | nil =>
      simp only [likeStar]
      constructor
      · intro h; exact ⟨[], [], rfl, h⟩
      · rintro ⟨a, b, hab, hb⟩
        obtain ⟨rfl, rfl⟩ := List.append_eq_nil.mp hab.symm
        exact hb
  | cons c s2 ih =>
      simp only [likeStar, Bool.or_eq_true, ih]
      constructor
      · rintro (h | ⟨a, b, rfl, hb⟩)
        · exact ⟨[], c :: s2, rfl, h⟩
        · exact ⟨c :: a, b, rfl, hb⟩
      · rintro ⟨a, b, hab, hb⟩
        cases a with
        | nil =>
            left
            simpa [← List.nil_append b ▸ hab] using hb
        | cons x a2 =>
            right
            obtain ⟨rfl, hs⟩ := List.cons.inj hab
            exact ⟨a2, b, hs, hb⟩

/-- The empty pattern matches only the empty string. -/
theorem likeMatch_nil_pattern (s : List Char) :
    likeMatch [] s = true ↔ s = [] := by
  cases s <;> simp [likeMatch]

/-- The pattern `%` matches every string. -/
theorem likeMatch_percent (s : List Char) : likeMatch ['%'] s = true := by
  have h : likeMatch ['%'] s = likeStar (likeMatch []) s := by
    simp [likeMatch]
  rw [h, likeStar_iff]
  exact ⟨s, [], (List.append_nil s).symm, rfl⟩

/-- A wildcard-free pattern prefix consumes exactly a block of characters
equal to it up to ASCII case folding. -/
theorem likeMatch_lit (t : List Char) :
    '%' ∉ t → '_' ∉ t → ∀ p s,
      (likeMatch (t ++ p) s = true ↔
        ∃ u v, s = u ++ v ∧ u.map likeFoldChar = t.map likeFoldChar ∧
          likeMatch p v = true) := by
  induction t with
  | nil =>
      intro _ _ p s
      constructor
      · intro h; exact ⟨[], s, rfl, rfl, by simpa using h⟩
      · rintro ⟨u, v, rfl, hm, hv⟩
        obtain rfl : u = [] := by simpa using hm
        simpa using hv
  | cons c t2 ih =>
      intro hp hu p s
      simp only [List.mem_cons, not_or] at hp hu
      obtain ⟨hc1, hp2⟩ := hp
      obtain ⟨hc2, hu2⟩ := hu
      cases s with
      | nil =>
          have hL : likeMatch ((c :: t2) ++ p) [] = false := by
            simp only [List.cons_append, likeMatch]
            rw [if_neg (fun h => hc1 h.symm)]
          rw [hL]
          constructor
          · intro h; cases h
          · rintro ⟨u, v, huv, hm, hv⟩
            cases u with
            | nil => simp at hm
            | cons x u2 => simp at huv
      | cons c2 s2 =>
          have hL : likeMatch ((c :: t2) ++ p) (c2 :: s2)
              = ((likeFoldChar c == likeFoldChar c2) && likeMatch (t2 ++ p) s2) := by
            simp only [List.cons_append, likeMatch]
            rw [if_neg (fun h => hc1 h.symm), if_neg (fun h => hc2 h.symm)]
            rfl
          rw [hL, Bool.and_eq_true, beq_iff_eq, ih hp2 hu2 p s2]
          simp only [List.map_cons]
          constructor
          · rintro ⟨hf, u, v, rfl, hm, hv⟩
            exact ⟨c2 :: u, v, rfl, by simp [List.map_cons, hm, ← hf], hv⟩
          · rintro ⟨u, v, huv, hm, hv⟩
            cases u with
            | nil => simp at hm
            | cons x u2 =>
                obtain ⟨rfl, hs⟩ := List.cons.inj huv
                simp only [List.map_cons] at hm
                obtain ⟨hx, hm2⟩ := List.cons.inj hm
                exact ⟨hx.symm, u2, v, hs, hm2, hv⟩

/-- For a wildcard-free term, the executed filter `field LIKE '%term%'`
holds exactly when the case-folded term is a substring of the case-folded
field: SQLite LIKE is case-insensitive substring search here. -/
theorem likeStr_ci (t f : String) (hp : '%' ∉ t.toList) (hu : '_' ∉ t.toList) :
    likeStr t f = true ↔ ciContains t f := by
  have h0 : likeStr t f = likeStar (likeMatch (t.toList ++ ['%'])) f.toList := by
    simp [likeStr, likeMatch]
  rw [h0, likeStar_iff]
  unfold ciContains
  constructor
  · rintro ⟨a, b, hfab, hb⟩
    obtain ⟨u, v, rfl, hm, hv⟩ := (likeMatch_lit t.toList hp hu ['%'] b).mp hb
    refine ⟨a.map likeFoldChar, v.map likeFoldChar, ?_⟩
    rw [hfab]
    simp [hm]
  · rintro ⟨x, y, hxy⟩
    obtain ⟨l1, l2, hf, hm1, hm2⟩ := List.map_eq_append_iff.mp hxy.symm
    obtain ⟨a, u, hl1, hma, hmu⟩ := List.map_eq_append_iff.mp hm1
    refine ⟨a, u ++ l2, by rw [hf, hl1, List.append_assoc], ?_⟩
    exact (likeMatch_lit t.toList hp hu ['%'] (u ++ l2)).mpr
      ⟨u, l2, rfl, hmu, likeMatch_percent l2⟩

/-- Boolean form of `likeStr_ci`. -/
theorem likeStr_eq_decide (t f : String) (hp : '%' ∉ t.toList)
    (hu : '_' ∉ t.toList) : likeStr t f = decide (ciContains t f) := by
  by_cases h : ciContains t f
  · rw [(likeStr_ci t f hp hu).mpr h]
    simp [h]
  · rw [decide_eq_false h, Bool.eq_false_iff]
    intro hb
    exact h ((likeStr_ci t f hp hu).mp hb)

/-- C2 (amended): for a wildcard-free term, `SearchRequestHistory` returns
exactly the history rows whose URL, method, or response status contains
the term as a case-INSENSITIVE (ASCII) substring, ordered by timestamp
descending and cut to the limit — SQLite `LIKE` is case-insensitive over
ASCII, so matching is not case-sensitive as the original claim stated. -/
theorem c2_search_case_insensitive_substring (s : Store) (t : String)
    (n : Nat) (hp : '%' ∉ t.toList) (hu : '_' ∉ t.toList) :
    SearchRequestHistory s t n =
      (sortHistDesc (s.request_history.filter (fun r =>
        decide (ciContains t r.URL) || decide (ciContains t r.Method) ||
          decide (ciContains t r.responseStatus)))).take n := by
  unfold SearchRequestHistory
  have hfil :
      s.request_history.filter (fun r =>
        likeStr t r.URL || likeStr t r.Method || likeStr t r.responseStatus)
      = s.request_history.filter (fun r =>
          decide (ciContains t r.URL) || decide (ciContains t r.Method) ||
            decide (ciContains t r.responseStatus)) := by
    apply List.filter_congr
    intro r _
    rw [likeStr_eq_decide t r.URL hp hu, likeStr_eq_decide t r.Method hp hu,
        likeStr_eq_decide t r.responseStatus hp hu]
  rw [hfil]

/-- Witness for C2 (amended) at the store holding one `GET` row and the
term `get`. -/
theorem c2_search_case_insensitive_substring_witness :
    SearchRequestHistory c2Store "get" 10 =
      (sortHistDesc (c2Store.request_history.filter (fun r =>
        decide (ciContains "get" r.URL) || decide (ciContains "get" r.Method) ||
          decide (ciContains "get" r.responseStatus)))).take 10 :=
  c2_search_case_insensitive_substring c2Store "get" 10 (by decide) (by decide)

/-- C6 (amended): for any iteration order of the header map (a permutation
of its entries), the collected pairs are exactly one per value occurrence
(the multiset of pairs is independent of the order), and the values of
each key appear consecutively in their received order; only the relative
order of distinct keys is left open by the map iteration. -/
theorem c6_header_pairs_per_occurrence
    (entries iter : List (String × List String)) (h : iter.Perm entries) :
    (collectHeaders iter).Perm (collectHeaders entries) ∧
    ∀ kv ∈ iter,
      (kv.2.map (fun v => ResponseHeader.mk kv.1 v)) <:+: collectHeaders iter := by
  constructor
  · unfold collectHeaders
    exact h.flatMap_right _
  · intro kv hkv
    unfold collectHeaders
    exact List.infix_of_mem_flatten
      (List.mem_map_of_mem (fun kv2 => kv2.2.map (fun v => ResponseHeader.mk kv2.1 v)) hkv)

/-- Witness for C6 (amended): the header map for `A: 1`, `B: 2` iterated
in the order `B, A` still yields one pair per occurrence. -/
theorem c6_header_pairs_per_occurrence_witness :
    (collectHeaders c6Iter).Perm (collectHeaders c6Entries) :=
  (c6_header_pairs_per_occurrence c6Entries c6Iter (by decide)).1

/-- `find?` skips a prefix on which it fails. -/
theorem find?_append_none {α : Type} (l1 l2 : List α) (p : α → Bool)
    (h : l1.find? p = none) : (l1 ++ l2).find? p = l2.find? p := by
  induction l1 with
  | nil => rfl
  | cons a l ih =>
      cases hpa : p a with
      | true => simp [List.find?_cons, hpa] at h
      | false =>
          simp only [List.find?_cons, hpa] at h
          simp only [List.cons_append, List.find?_cons, hpa]
          exact ih h

/-- After the upsert's UPDATE branch rewrites every row with the given
key, `find?` returns the updated row. -/
theorem find?_upsert (l : List Preference) (k v : String) (ts : Nat)
    (hany : l.any (fun p => p.key == k) = true) :
    (l.map (fun p =>
      if p.key == k then { p with value := v, updatedAt := ts } else p)).find?
        (fun p => p.key == k) = some { key := k, value := v, updatedAt := ts } := by
  induction l with
  | nil => cases hany
  | cons p l ih =>
      cases hpk : (p.key == k) with
      | true =>
          have hk : p.key = k := by simpa using hpk
          simp only [List.map_cons, if_pos hpk, List.find?_cons]
          simp [hpk, hk]
      | false =>
          have hany2 : l.any (fun q => q.key == k) = true := by
            simpa [List.any_cons, hpk] using hany
          simp only [List.map_cons, List.find?_cons, hpk, Bool.false_eq_true,
            if_false]
          exact ih hany2

/-- C8: `SetPreference` is an upsert — after `set(k, v)`, `get(k)` returns
exactly the value `v` with the fresh `CURRENT_TIMESTAMP` reading
`clock + 1`, and (given clock well-formedness) every timestamp the key
held before is at most that new timestamp. -/
theorem c8_setPreference_upsert (s : Store) (k v : String) (h : ClockWF s) :
    GetPreference (SetPreference s k v) k =
      some { key := k, value := v, updatedAt := s.clock + 1 } ∧
    ∀ p, GetPreference s k = some p → p.updatedAt ≤ s.clock + 1 := by
  constructor
  · have hpref : (SetPreference s k v).preferences =
        (if s.preferences.any (fun p => p.key == k) then
          s.preferences.map (fun p =>
            if p.key == k then { p with value := v, updatedAt := s.clock + 1 }
            else p)
        else
          s.preferences ++
            [{ key := k, value := v, updatedAt := s.clock + 1 }]) := rfl
    unfold GetPreference
    rw [hpref]
    by_cases hany : s.preferences.any (fun p => p.key == k) = true
    · rw [if_pos hany]
      exact find?_upsert s.preferences k v (s.clock + 1) hany
    · rw [if_neg hany]
      rw [find?_append_none]
      · simp [List.find?_cons]
      · rw [List.find?_eq_none]
        intro p hp
        have hfalse : s.preferences.any (fun p => p.key == k) = false :=
          Bool.eq_false_iff.mpr hany
        simpa using List.any_eq_false.mp hfalse p hp
  · intro p hp
    have hmem : p ∈ s.preferences := List.mem_of_find?_eq_some hp
    exact Nat.le_succ_of_le (h p hmem)

/-- Witness for C8 at a concrete store whose `last_url` preference was
written at clock 3: after `set`, `get` returns the new value stamped 6. -/
theorem c8_setPreference_upsert_witness :
    GetPreference (SetPreference c8Store "last_url" "new") "last_url" =
      some { key := "last_url", value := "new", updatedAt := 6 } :=
  (c8_setPreference_upsert c8Store "last_url" "new"
    (by
      intro p hp
      rw [List.mem_singleton.mp hp]
      decide)).1

/-- The import transaction loop commits all rows, with freshly assigned
ids, when no insert fails. -/
theorem importTx_ok (fail : RequestHistory → Option String) :
    ∀ (rows hist : List RequestHistory) (nid : Nat),
      rows.find? (fun r => (fail r).isSome) = none →
      importTx fail rows hist nid =
        .ok (hist ++ assignIds nid rows, nid + rows.length) := by
  intro rows
  induction rows with
  | nil =>
      intro hist nid _
      simp [importTx, assignIds]
  | cons r rs ih =>
      intro hist nid h
      have h1 : (fail r).isSome = false := by
        cases hh : (fail r).isSome
        · rfl
        · simp [List.find?_cons, hh] at h
      have h2 : rs.find? (fun r => (fail r).isSome) = none := by
        simpa [List.find?_cons, h1] using h
      have hfr : fail r = none := by
        cases hfr2 : fail r
        · rfl
        · rw [hfr2] at h1; cases h1
      simp only [importTx, hfr]
      rw [ih (hist ++ [({ r with id := nid } : RequestHistory)]) (nid + 1) h2]
      simp [assignIds, List.append_assoc]
      omega

/-- The import transaction loop aborts with the first failing insert's
error. -/
theorem importTx_err (fail : RequestHistory → Option String) :
    ∀ (rows hist : List RequestHistory) (nid : Nat) (r0 : RequestHistory)
      (e : String),
      rows.find? (fun r => (fail r).isSome) = some r0 → fail r0 = some e →
      importTx fail rows hist nid = .error e := by
  intro rows
  induction rows with
  | nil =>
      intro hist nid r0 e hfind _
      simp [List.find?] at hfind
  | cons r rs ih =>
      intro hist nid r0 e hfind hfail
      cases hfr : fail r with
      | some e2 =>
          have hr0 : r0 = r := by
            have : (fail r).isSome = true := by simp [hfr]
            simp [List.find?_cons, this] at hfind
            exact hfind.symm
          subst hr0
          rw [hfail] at hfr
          simp only [importTx, hfail]
      | none =>
          have hcond : (fail r).isSome = false := by simp [hfr]
          have h2 : rs.find? (fun r => (fail r).isSome) = some r0 := by
            simpa [List.find?_cons, hcond] using hfind
          simp only [importTx, hfr]
          exact ih _ _ r0 e h2 hfail

/-- C3: `ImportHistory` is all-or-nothing.  With the file decoding to
`rows`: if no insert fails, every row is committed (with fresh ids) and no
error is returned; if some insert fails, the store is returned unchanged
(zero newly-inserted rows — the deferred rollback discards the
transaction) together with the first failing insert's error. -/
theorem c3_importHistory_all_or_nothing
    (fail : RequestHistory → Option String) (s : Store) (file : Json)
    (rows : List RequestHistory) (hdec : decodeHistory file = some rows) :
    (rows.find? (fun r => (fail r).isSome) = none →
      ImportHistory fail s file =
        ({ s with
            request_history :=
              s.request_history ++ assignIds s.nextHistoryId rows,
            nextHistoryId := s.nextHistoryId + rows.length }, none)) ∧
    (∀ (r0 : RequestHistory) (e : String),
      rows.find? (fun r => (fail r).isSome) = some r0 → fail r0 = some e →
      ImportHistory fail s file = (s, some e)) := by
  constructor
  · intro hnone
    unfold ImportHistory
    rw [hdec]
    show (match importTx fail rows s.request_history s.nextHistoryId with
      | Except.error e => (s, some e)
      | Except.ok (hist, nid) =>
          ({ s with request_history := hist, nextHistoryId := nid }, none)) = _
    rw [importTx_ok fail rows s.request_history s.nextHistoryId hnone]
  · intro r0 e hfind hfail
    unfold ImportHistory
    rw [hdec]
    show (match importTx fail rows s.request_history s.nextHistoryId with
      | Except.error e => (s, some e)
      | Except.ok (hist, nid) =>
          ({ s with request_history := hist, nextHistoryId := nid }, none)) = _
    rw [importTx_err fail rows s.request_history s.nextHistoryId r0 e
      hfind hfail]

/-- Witness for C3: importing a two-row file whose second insert fails
leaves the store unchanged and returns the underlying error. -/
theorem c3_importHistory_all_or_nothing_witness :
    ImportHistory c3Fail emptyStore c3File =
      (emptyStore, some "database is locked") :=
  (c3_importHistory_all_or_nothing c3Fail emptyStore c3File [c3RowA, c3RowB]
      (by decide)).2 c3RowB "database is locked" (by decide) (by decide)

set_option maxHeartbeats 1600000 in
/-- Marshalling one history row and unmarshalling it back restores every
field (the `omitempty` fields dropped when empty decode back to their zero
values). -/
theorem decodeRow_encodeRow (r : RequestHistory) :
    decodeRow (encodeRow r) = some r := by
  obtain ⟨i, u, m, hd, b, ts, rs, rb, rh, rt, rsz, fav, cid⟩ := r
  cases cid <;>
    · simp only [encodeRow]
      split_ifs <;> subst_vars <;> rfl

/-- Elementwise round trip over a marshalled row list. -/
theorem decodeRows_map (l : List RequestHistory) :
    decodeRows (l.map encodeRow) = some l := by
  induction l with
  | nil => rfl
  | cons r rs ih =>
      show (decodeRow (encodeRow r)).bind
          (fun r2 => (decodeRows (rs.map encodeRow)).map fun rs2 => r2 :: rs2)
        = some (r :: rs)
      rw [decodeRow_encodeRow r, ih]
      rfl

/-- Marshalling a history slice and unmarshalling it back restores the
row list (`null` for the nil slice round-trips to the empty list). -/
theorem decodeHistory_encodeHistory (l : List RequestHistory) :
    decodeHistory (encodeHistory l) = some l := by
  cases l with
  | nil => rfl
  | cons r rs =>
      show decodeRows ((r :: rs).map encodeRow) = some (r :: rs)
      exact decodeRows_map (r :: rs)

/-- Reassigning ids does not change any other field. -/
theorem map_stripId_assignIds (n : Nat) (l : List RequestHistory) :
    (assignIds n l).map stripId = l.map stripId := by
  induction l generalizing n with
  | nil => rfl
  | cons r rs ih => simp [assignIds, stripId, ih]

/-- C4: for a store holding at most 10,000 history rows, exporting and
importing the file into an empty store succeeds and reproduces the same
multiset of history rows up to the store-assigned identities. -/
theorem c4_export_import_roundtrip (s : Store)
    (h : s.request_history.length ≤ 10000) :
    (ImportHistory (fun _ => none) emptyStore (ExportHistory s)).2 = none ∧
    ((ImportHistory (fun _ => none) emptyStore
        (ExportHistory s)).1.request_history.map stripId).Perm
      (s.request_history.map stripId) := by
  have hlen : (sortHistDesc s.request_history).length ≤ 10000 := by
    show (List.insertionSort histDesc s.request_history).length ≤ 10000
    rw [(List.perm_insertionSort histDesc s.request_history).length_eq]
    exact h
  have hget : GetRequestHistory s 10000 0 = sortHistDesc s.request_history := by
    unfold GetRequestHistory
    rw [List.drop_zero, List.take_of_length_le hlen]
  have hdec : decodeHistory (ExportHistory s) =
      some (sortHistDesc s.request_history) := by
    unfold ExportHistory
    rw [hget, decodeHistory_encodeHistory]
  have hfind : (sortHistDesc s.request_history).find?
      (fun r =>
        ((fun (_ : RequestHistory) => (none : Option String)) r).isSome) =
      none := by
    rw [List.find?_eq_none]
    intro a _
    simp
  have himp : ImportHistory (fun _ => none) emptyStore (ExportHistory s) =
      ({ emptyStore with
          request_history :=
            emptyStore.request_history ++
              assignIds emptyStore.nextHistoryId
                (sortHistDesc s.request_history),
          nextHistoryId :=
            emptyStore.nextHistoryId +
              (sortHistDesc s.request_history).length }, none) := by
    unfold ImportHistory
    rw [hdec]
    show (match importTx (fun _ => none) (sortHistDesc s.request_history)
            emptyStore.request_history emptyStore.nextHistoryId with
      | Except.error e => (emptyStore, some e)
      | Except.ok (hist, nid) =>
          ({ emptyStore with request_history := hist, nextHistoryId := nid },
            none)) = _
    rw [importTx_ok _ _ _ _ hfind]
  rw [himp]
  refine ⟨rfl, ?_⟩
  show ((emptyStore.request_history ++
      assignIds emptyStore.nextHistoryId
        (sortHistDesc s.request_history)).map stripId).Perm
    (s.request_history.map stripId)
  have e1 : emptyStore.request_history = ([] : List RequestHistory) := rfl
  rw [e1, List.nil_append, map_stripId_assignIds]
  exact (List.perm_insertionSort histDesc s.request_history).map stripId

/-- Witness for C4 at a two-row store. -/
theorem c4_export_import_roundtrip_witness :
    ((ImportHistory (fun _ => none) emptyStore
        (ExportHistory c4Store)).1.request_history.map stripId).Perm
      (c4Store.request_history.map stripId) :=
  (c4_export_import_roundtrip c4Store (by decide)).2

/-- C9 (amended): export serializes the up-to-10,000 most recent rows
(sorted by timestamp descending); a store with at least one row produces a
JSON array of objects, while the empty store produces JSON `null` (a Go
nil slice), not an array. -/
theorem c9_export_format (s : Store) :
    ExportHistory s =
      encodeHistory ((sortHistDesc s.request_history).take 10000) ∧
    List.Sorted histDesc ((sortHistDesc s.request_history).take 10000) ∧
    (s.request_history ≠ [] →
      ExportHistory s =
        Json.arr (((sortHistDesc s.request_history).take 10000).map
          encodeRow)) := by
  refine ⟨?_, ?_, ?_⟩
  · unfold ExportHistory GetRequestHistory
    rw [List.drop_zero]
  · exact List.Pairwise.sublist (List.take_sublist 10000 _)
      (List.sorted_insertionSort histDesc s.request_history)
  · intro hne
    have hne2 : (sortHistDesc s.request_history).take 10000 ≠ [] := by
      intro h0
      apply hne
      rcases List.take_eq_nil_iff.mp h0 with h10 | hsort
      · exact absurd h10 (by decide)
      · have hp := (List.perm_insertionSort histDesc s.request_history).symm
        have hsort2 : List.insertionSort histDesc s.request_history = [] := hsort
        rw [hsort2] at hp
        exact hp.eq_nil
    unfold ExportHistory GetRequestHistory
    rw [List.drop_zero]
    cases hcase : (sortHistDesc s.request_history).take 10000 with
    | nil => exact absurd hcase hne2
    | cons a l2 => rfl

/-- Witness for C9 (amended) at a one-row store: an array is produced. -/
theorem c9_export_format_witness :
    ExportHistory c9Store =
      Json.arr (((sortHistDesc c9Store.request_history).take 10000).map
        encodeRow) :=
  (c9_export_format c9Store).2.2 (by decide)
